import Mathlib

/-!
Shallow embedding of the smirk key-value store core
(src/core/smirk_map.rs, src/core/record.rs, src/core/trie.rs,
src/lib/command.rs, src/server/main.rs Mode arm), with theorems
settling the specification claims.

Modelling conventions:
* Rust Vec<u8> textual inputs are modelled by their lossy-decoded text
  (a Lean String, or List Char at the wire-protocol level).
* SystemTime is modelled as a Nat of seconds; every operation that calls
  SystemTime::now() takes the current time as an explicit argument.
* HashMap<String, _> is modelled as a function String -> Option _ with
  pointwise update; HashMap<char, Trie> as an association list.
* u64 counter arithmetic is taken modulo 2^64.
* Rust panics are modelled as the none case of an Option result.
* f32/f64 are omitted from the embedded tag universe (floating point is
  outside the shallow embedding); all other value tags are embedded.
-/

/-- Limit for u64 modular arithmetic. -/
def u64Limit : Nat := 2 ^ 64

/-- The scalar type tags that SmirkMap::set / get are instantiated at by
process_command in src/server/main.rs (f32/f64 omitted, see header). -/
inductive STag where
  | tI8 | tI16 | tI32 | tI64 | tI128 | tISize
  | tU8 | tU16 | tU32 | tU64 | tU128 | tUSize
  | tBigInt | tBool | tChar | tString
deriving DecidableEq, Repr

/-- The Lean carrier of each Rust scalar type: fixed-width and big integers
are carried by Int (ranges enforced by the parser), the rest literally. -/
@[reducible]
def STag.carrier : STag → Type
  | .tI8 => Int
  | .tI16 => Int
  | .tI32 => Int
  | .tI64 => Int
  | .tI128 => Int
  | .tISize => Int
  | .tU8 => Int
  | .tU16 => Int
  | .tU32 => Int
  | .tU64 => Int
  | .tU128 => Int
  | .tUSize => Int
  | .tBigInt => Int
  | .tBool => Bool
  | .tChar => Char
  | .tString => String

/-- The string std::any::type_name returns for each embedded type
(isize/usize are modelled at 64-bit platform width). -/
def STag.rustName : STag → String
  | .tI8 => "i8"
  | .tI16 => "i16"
  | .tI32 => "i32"
  | .tI64 => "i64"
  | .tI128 => "i128"
  | .tISize => "isize"
  | .tU8 => "u8"
  | .tU16 => "u16"
  | .tU32 => "u32"
  | .tU64 => "u64"
  | .tU128 => "u128"
  | .tUSize => "usize"
  | .tBigInt => "num_bigint::bigint::BigInt"
  | .tBool => "bool"
  | .tChar => "char"
  | .tString => "alloc::string::String"

/-- Inclusive value range of each bounded integer tag; none for the
arbitrary-precision tBigInt and for the non-integer tags. -/
def STag.intBounds : STag → Option (Int × Int)
  | .tI8 => some (-(2 ^ 7), 2 ^ 7 - 1)
  | .tI16 => some (-(2 ^ 15), 2 ^ 15 - 1)
  | .tI32 => some (-(2 ^ 31), 2 ^ 31 - 1)
  | .tI64 => some (-(2 ^ 63), 2 ^ 63 - 1)
  | .tI128 => some (-(2 ^ 127), 2 ^ 127 - 1)
  | .tISize => some (-(2 ^ 63), 2 ^ 63 - 1)
  | .tU8 => some (0, 2 ^ 8 - 1)
  | .tU16 => some (0, 2 ^ 16 - 1)
  | .tU32 => some (0, 2 ^ 32 - 1)
  | .tU64 => some (0, 2 ^ 64 - 1)
  | .tU128 => some (0, 2 ^ 128 - 1)
  | .tUSize => some (0, 2 ^ 64 - 1)
  | .tBigInt => none
  | .tBool => none
  | .tChar => none
  | .tString => none

/-- Whether the tag is one of the signed integer tags (the ones whose
FromStr accepts a leading minus sign). -/
def STag.signed : STag → Bool
  | .tI8 | .tI16 | .tI32 | .tI64 | .tI128 | .tISize | .tBigInt => true
  | _ => false

/-- Whether the tag is an integer tag, i.e. one the ADD dispatcher routes
through the checked accumulation SmirkMap::add. -/
def STag.integral : STag → Bool
  | .tBool | .tChar | .tString => false
  | _ => true

/-- View of a carrier value as an Int; some exactly on integral tags. -/
def STag.asInt : (t : STag) → t.carrier → Option Int
  | .tI8, v => some v
  | .tI16, v => some v
  | .tI32, v => some v
  | .tI64, v => some v
  | .tI128, v => some v
  | .tISize, v => some v
  | .tU8, v => some v
  | .tU16, v => some v
  | .tU32, v => some v
  | .tU64, v => some v
  | .tU128, v => some v
  | .tUSize, v => some v
  | .tBigInt, v => some v
  | .tBool, _ => none
  | .tChar, _ => none
  | .tString, _ => none

/-- Value of a nonempty all-digit character list, as in Rust integer
FromStr (no other characters accepted). -/
def digitsToNat : List Char → Option Nat
  | [] => none
  | cs =>
    if cs.all Char.isDigit then
      some (cs.foldl (fun a c => a * 10 + (c.toNat - 48)) 0)
    else
      none

/-- Rust FromStr for integers: optional sign (minus only when allowed),
one or more decimal digits, result within [lo, hi]. -/
def parseRustInt (allowNeg : Bool) (lo hi : Int) (s : String) : Option Int :=
  let p : Bool × List Char :=
    match s.data with
    | '+' :: rest => (false, rest)
    | '-' :: rest => (true, rest)
    | cs => (false, cs)
  if p.1 && !allowNeg then none
  else
    match digitsToNat p.2 with
    | none => none
    | some n =>
      let v : Int := if p.1 then -(n : Int) else (n : Int)
      if lo ≤ v ∧ v ≤ hi then some v else none

/-- Rust FromStr for num_bigint::BigInt: optional sign then one or more
decimal digits, unbounded. -/
def parseBigInt (s : String) : Option Int :=
  let p : Bool × List Char :=
    match s.data with
    | '+' :: rest => (false, rest)
    | '-' :: rest => (true, rest)
    | cs => (false, cs)
  match digitsToNat p.2 with
  | none => none
  | some n => some (if p.1 then -(n : Int) else (n : Int))

/-- The canonical text parser of each tag, i.e. Rust T::from_str on the
lossy-decoded input, as invoked by SmirkMap::set. -/
def parseAs : (t : STag) → String → Option t.carrier
  | .tI8, s => parseRustInt true (-(2 ^ 7)) (2 ^ 7 - 1) s
  | .tI16, s => parseRustInt true (-(2 ^ 15)) (2 ^ 15 - 1) s
  | .tI32, s => parseRustInt true (-(2 ^ 31)) (2 ^ 31 - 1) s
  | .tI64, s => parseRustInt true (-(2 ^ 63)) (2 ^ 63 - 1) s
  | .tI128, s => parseRustInt true (-(2 ^ 127)) (2 ^ 127 - 1) s
  | .tISize, s => parseRustInt true (-(2 ^ 63)) (2 ^ 63 - 1) s
  | .tU8, s => parseRustInt false 0 (2 ^ 8 - 1) s
  | .tU16, s => parseRustInt false 0 (2 ^ 16 - 1) s
  | .tU32, s => parseRustInt false 0 (2 ^ 32 - 1) s
  | .tU64, s => parseRustInt false 0 (2 ^ 64 - 1) s
  | .tU128, s => parseRustInt false 0 (2 ^ 128 - 1) s
  | .tUSize, s => parseRustInt false 0 (2 ^ 64 - 1) s
  | .tBigInt, s => parseBigInt s
  | .tBool, s => if s = "true" then some true else if s = "false" then some false else none
  | .tChar, s => match s.data with
    | [c] => some c
    | _ => none
  | .tString, s => some s

/-- A stored value: the Box<dyn Any> contents, either a scalar written by
SmirkMap::set (tagged with its concrete Rust type, so that downcast_ref
succeeds exactly on that tag) or raw bytes written by binary_set. -/
inductive SmirkValue where
  | scalar : (t : STag) → t.carrier → SmirkValue
  | bytes : String → SmirkValue

/-- Record from src/core/record.rs (value plus TTL state and type names). -/
structure Record where
  value : SmirkValue
  ttl : Option Nat
  ttl_start : Nat
  type_name : String
  desired_type_name : String

/-- Record::is_expired from src/core/record.rs; duration_since with
unwrap_or_default is truncated subtraction on Nat seconds. -/
def Record.is_expired (r : Record) (now : Nat) : Bool :=
  match r.ttl with
  | some ttl => decide ((now - r.ttl_start) ≥ ttl)
  | none => false

/-- Record::get_ttl from src/core/record.rs. -/
def Record.get_ttl (r : Record) (now : Nat) : Option Nat :=
  match r.ttl with
  | some ttl =>
    let duration := now - r.ttl_start
    if duration ≥ ttl then some 0 else some (ttl - duration)
  | none => none

/-- SmirkMessages from src/core/smirk_messages.rs, including the
AddOverflowError variant referenced by SmirkMap::add. -/
inductive SmirkMessages where
  | SetKey : String → String → String → SmirkMessages
  | KeyNotFound : String → SmirkMessages
  | TypeMismatch : String → String → SmirkMessages
  | ParseError : String → String → String → SmirkMessages
  | AddOverflowError : SmirkMessages
deriving DecidableEq

/-- SmirkSearchMode from src/core/smirk_search_mode.rs. -/
inductive SmirkSearchMode where
  | Glob | Regex | Trie
deriving DecidableEq, Repr

/-- Trie from src/core/trie.rs; children as an association list. -/
inductive Trie where
  | mk : Bool → Nat → List (Char × Trie) → Trie

/-- Field has_key_ending_here of a trie node. -/
def Trie.ending : Trie → Bool
  | .mk e _ _ => e

/-- Field counter of a trie node. -/
def Trie.counter : Trie → Nat
  | .mk _ c _ => c

/-- Field children of a trie node. -/
def Trie.children : Trie → List (Char × Trie)
  | .mk _ _ ch => ch

/-- Trie::default() from src/core/trie.rs. -/
def Trie.defaultTrie : Trie := .mk false 1 []

/-- HashMap::get on the children association list. -/
def lookupChild (c : Char) : List (Char × Trie) → Option Trie
  | [] => none
  | (c', t) :: rest => if c' = c then some t else lookupChild c rest

/-- HashMap entry(c).or_insert / in-place overwrite on the children list:
replaces the entry at c, appending it when absent. -/
def updateChild (c : Char) (t : Trie) : List (Char × Trie) → List (Char × Trie)
  | [] => [(c, t)]
  | (c', t') :: rest =>
    if c' = c then (c, t) :: rest else (c', t') :: updateChild c t rest

/-- Trie::insert from src/core/trie.rs, keys as char lists. none models a
panic: remove(0) on the empty string panics, and the recursive call (on the
remaining string, i.e. rest) is made exactly when that remainder is empty —
the source condition — so the call always panics when taken. -/
def Trie.insert : Trie → List Char → Option Trie
  | _, [] => none
  | t, w :: rest =>
    let child0 : Trie :=
      match lookupChild w t.children with
      | some c => c
      | none => .mk rest.isEmpty 1 []
    let child1 : Trie := .mk rest.isEmpty ((child0.counter + 1) % u64Limit) child0.children
    if rest.isEmpty then
      match Trie.insert child1 rest with
      | none => none
      | some child2 => some (.mk t.ending t.counter (updateChild w child2 t.children))
    else
      some (.mk t.ending t.counter (updateChild w child1 t.children))

/-- Trie::remove from src/core/trie.rs: walk the path (returning the trie
unchanged if a step is missing), decrement the terminal node's u64 counter,
then drop the terminal node's direct children whose counter is 0 (the
source collects their keys and removes them, which is this filter). -/
def Trie.remove : Trie → List Char → Trie
  | t, [] =>
    .mk t.ending ((t.counter + (u64Limit - 1)) % u64Limit)
      (t.children.filter (fun p => p.2.counter ≠ 0))
  | t, c :: rest =>
    match lookupChild c t.children with
    | some child => .mk t.ending t.counter (updateChild c (child.remove rest) t.children)
    | none => t

/-- Trie::get_keys_with_prefix from src/core/trie.rs (source name kept up
to the embedding's abbreviation). The source's explicit stack holds at most
one entry at any time, so the loop is exactly this recursion: descend along
the query, then report each child key of the reached node as a one-char
string. -/
def Trie.getKeysWithPfx : Trie → List Char → List String
  | t, [] => t.children.map (fun p => String.mk [p.1])
  | t, c :: rest =>
    match lookupChild c t.children with
    | some child => child.getKeysWithPfx rest
    | none => []

/-- Node of a trie reached by following a character path. -/
def Trie.findPath : Trie → List Char → Option Trie
  | t, [] => some t
  | t, c :: rest =>
    match lookupChild c t.children with
    | some child => child.findPath rest
    | none => none

/-- Whether no direct child of the node has live-count zero. -/
def Trie.noZeroChild (t : Trie) : Bool :=
  t.children.all (fun p => p.2.counter != 0)

/-- SmirkMap from src/core/smirk_map.rs; the HashMap is a function with
pointwise update. -/
structure SmirkMap where
  search_mode : SmirkSearchMode
  map : String → Option Record
  trie : Trie

/-- SmirkMap::get: downcast_ref::<T> succeeds exactly when the stored
concrete type is T, i.e. the stored scalar tag equals the requested tag. -/
def SmirkMap.get (m : SmirkMap) (t : STag) (key : String) : Except SmirkMessages t.carrier :=
  match m.map key with
  | some record =>
    match record.value with
    | .scalar t' v =>
      if h : t' = t then .ok (h ▸ v)
      else .error (.TypeMismatch key t.rustName)
    | .bytes _ => .error (.TypeMismatch key t.rustName)
  | none => .error (.KeyNotFound key)

/-- SmirkMap::set: parse the input with T's FromStr; on success insert a
fresh record (ttl none, ttl_start now) and acknowledge; on failure return
ParseError(key, raw input, type name) leaving the map untouched. -/
def SmirkMap.set (m : SmirkMap) (t : STag) (key value desired : String) (now : Nat) :
    SmirkMap × Except SmirkMessages SmirkMessages :=
  match parseAs t value with
  | some v =>
    let record : Record :=
      { value := .scalar t v, ttl := none, ttl_start := now,
        type_name := t.rustName, desired_type_name := desired }
    ({ m with map := fun k => if k = key then some record else m.map k },
      .ok (.SetKey key t.rustName desired))
  | none => (m, .error (.ParseError key value t.rustName))

/-- SmirkMap::exists. -/
def SmirkMap.exists (m : SmirkMap) (key : String) : Bool :=
  (m.map key).isSome

/-- SmirkMap::del: removed count 1 when present, else 0. -/
def SmirkMap.del (m : SmirkMap) (key : String) : SmirkMap × Nat :=
  if (m.map key).isSome then
    ({ m with map := fun k => if k = key then none else m.map k }, 1)
  else
    (m, 0)

/-- SmirkMap::ttl. -/
def SmirkMap.ttl (m : SmirkMap) (key : String) (now : Nat) : Except String (Option Nat) :=
  match m.map key with
  | some record => .ok (record.get_ttl now)
  | none => .error ("Key \"" ++ key ++ "\" was not found")

/-- SmirkMap::set_ttl: overwrite the ttl field of the record at key, if
any; no other field is touched. -/
def SmirkMap.set_ttl (m : SmirkMap) (key : String) (ttl : Option Nat) : SmirkMap :=
  match m.map key with
  | some r =>
    { m with map := fun k => if k = key then some { r with ttl := ttl } else m.map k }
  | none => m

/-- SmirkMap::set_search_mode. -/
def SmirkMap.set_search_mode (m : SmirkMap) (mode : SmirkSearchMode) : SmirkMap :=
  { m with search_mode := mode }

/-- CheckedAdd::checked_add at tag t: range-checked addition for bounded
integer tags, plain addition for BigInt (num's impl never fails). -/
def checkedAdd (t : STag) (a b : Int) : Option Int :=
  match t.intBounds with
  | some (lo, hi) => if lo ≤ a + b ∧ a + b ≤ hi then some (a + b) else none
  | none => some (a + b)

/-- Loop body of SmirkMap::add: fold get::<T> over the keys in order,
accumulating with checked_add from T::default() = 0; a failed get aborts
with ParseError(key, "", type name), a failed checked_add aborts with
AddOverflowError. The inner none case of asInt is unreachable: ADD is
dispatched only at integral tags, whose carrier is Int. -/
def SmirkMap.addGo (m : SmirkMap) (t : STag) : List String → Int → Except SmirkMessages Int
  | [], total => .ok total
  | key :: rest, total =>
    match m.get t key with
    | .ok v =>
      match t.asInt v with
      | some val =>
        match checkedAdd t val total with
        | some newTotal => m.addGo t rest newTotal
        | none => .error .AddOverflowError
      | none => .error .AddOverflowError
    | .error _ => .error (.ParseError key "" t.rustName)

/-- SmirkMap::add from src/core/smirk_map.rs. -/
def SmirkMap.add (m : SmirkMap) (t : STag) (keys : List String) : Except SmirkMessages Int :=
  m.addGo t keys 0

/-- Value stored at key viewed as an Int, when the record downcasts to
integral tag t. -/
def SmirkMap.getIntVal (m : SmirkMap) (t : STag) (key : String) : Option Int :=
  match m.get t key with
  | .ok v => t.asInt v
  | .error _ => none

/-- CommandError from src/lib/command_error.rs. -/
inductive CommandError where
  | NoInput | ArgumentMismatch | Unknown | NoValidModeSpecified | InvalidTtlSpecified
deriving DecidableEq, Repr

/-- Command from src/lib/command.rs. -/
inductive Command where
  | Set : String → String → List Char → Command
  | Get : String → String → Command
  | Del : List String → Command
  | Keys : String → Command
  | Mode : SmirkSearchMode → Command
  | TtlGet : String → Command
  | TtlSet : String → Option Nat → Command
  | Exists : String → Command
  | Type : String → Command
  | Quit : Command
  | Save : Command
deriving DecidableEq, Repr

/-- Byte-wise to_ascii_uppercase, on the char view of the line (uppercasing
touches only the bytes of a-z, which are standalone in UTF-8). -/
def asciiUpper (c : Char) : Char :=
  if 97 ≤ c.toNat ∧ c.toNat ≤ 122 then Char.ofNat (c.toNat - 32) else c

/-- Rust slice::split on a separator: empty runs between separators give
empty tokens, and an empty input gives one empty token. -/
def splitTok (sep : Char) : List Char → List (List Char)
  | [] => [[]]
  | c :: rest =>
    let r := splitTok sep rest
    if c = sep then [] :: r
    else (c :: r.headD []) :: r.tail

/-- Vec::pop of a trailing newline, as done on the raw line and again on
the uppercased command token. -/
def trimNl (l : List Char) : List Char :=
  if l.getLast? = some '\n' then l.dropLast else l

/-- Rust u64 FromStr, used by the TTL arm. -/
def parseU64 (s : String) : Option Nat :=
  match parseRustInt false 0 (2 ^ 64 - 1) s with
  | some v => some v.toNat
  | none => none

/-- Command::from_vec from src/lib/command.rs, on the char view of the
line: pop one trailing newline, tokenize on spaces, uppercase the command
token (popping a trailing newline from it again), then decode each arm.
The MODE arm uppercases its token and unconditionally pops the token's
last character before comparing with GLOB/REGEX. -/
def fromVec (v : List Char) : Except CommandError Command :=
  let tokens := splitTok ' ' (trimNl v)
  let cmd := trimNl ((tokens.headD []).map asciiUpper)
  let toks := tokens.drop 1
  let tokLen := toks.length
  if cmd = "SET".data then
    if tokLen < 3 then .error .ArgumentMismatch
    else
      .ok (.Set (String.mk (toks.headD [])) (String.mk ((toks.drop 1).headD []))
        (List.intercalate [' '] (toks.drop 2)))
  else if cmd = "GET".data then
    if tokLen ≠ 2 then .error .ArgumentMismatch
    else .ok (.Get (String.mk (toks.headD [])) (String.mk ((toks.drop 1).headD [])))
  else if cmd = "DEL".data then
    if tokLen < 1 then .error .ArgumentMismatch
    else .ok (.Del (toks.map String.mk))
  else if cmd = "KEYS".data then
    if tokLen ≠ 1 then .error .ArgumentMismatch
    else .ok (.Keys (String.mk (toks.headD [])))
  else if cmd = "MODE".data then
    if tokLen ≠ 1 then .error .ArgumentMismatch
    else
      let mode := ((toks.headD []).map asciiUpper).dropLast
      if mode = "GLOB".data then .ok (.Mode .Glob)
      else if mode = "REGEX".data then .ok (.Mode .Regex)
      else .error .NoValidModeSpecified
  else if cmd = "TTL".data then
    if tokLen = 1 then .ok (.TtlGet (String.mk (toks.headD [])))
    else if tokLen = 2 then
      match parseU64 (String.mk ((toks.drop 1).headD [])) with
      | some ttl => .ok (.TtlSet (String.mk (toks.headD [])) (some ttl))
      | none => .error .InvalidTtlSpecified
    else .error .ArgumentMismatch
  else if cmd = "DELTTL".data then
    if tokLen = 1 then .ok (.TtlSet (String.mk (toks.headD [])) none)
    else .error .ArgumentMismatch
  else if cmd = "EXISTS".data then
    if tokLen ≠ 1 then .error .ArgumentMismatch
    else .ok (.Exists (String.mk (toks.headD [])))
  else if cmd = "TYPE".data then
    if tokLen ≠ 1 then .error .ArgumentMismatch
    else .ok (.Type (String.mk (toks.headD [])))
  else if cmd = "QUIT".data then .ok .Quit
  else if cmd = "SAVE".data then .ok .Save
  else .error .Unknown

/-- Command::Mode arm of process_command in src/server/main.rs: re-match
the mode value and store it through SmirkMap::set_search_mode; the KEYS
arm then dispatches on the stored search_mode field. -/
def processMode (mode : SmirkSearchMode) (sm : SmirkMap) : SmirkMap :=
  sm.set_search_mode
    (match mode with
     | .Glob => .Glob
     | .Regex => .Regex
     | .Trie => .Trie)

/-- An empty SmirkMap as built at server start (mode defaulted to Glob). -/
def emptySmirkMap : SmirkMap :=
  { search_mode := .Glob, map := fun _ => none, trie := Trie.defaultTrie }

/-! ## Theorems -/

/-- Looking up the child just written by updateChild finds it. -/
theorem lookupChild_updateChild (c : Char) (x : Trie) (l : List (Char × Trie)) :
    lookupChild c (updateChild c x l) = some x := by
  induction l with
  | nil => simp [updateChild, lookupChild]
  | cons p rest ih =>
    by_cases h : p.1 = c
    · simp [updateChild, h, lookupChild]
    · simp [updateChild, h, lookupChild, ih]

/-- C10: Trie::insert is not total at its public interface: it panics
(modelled as none) exactly on keys of fewer than two characters — the empty
key immediately at remove(0), and a one-character key through the recursive
call on the emptied remainder — and returns normally on every key of length
two or more. -/
theorem trie_insert_panics_iff_short (t : Trie) (s : List Char) :
    (t.insert s).isNone ↔ s.length < 2 := by
  match s with
  | [] => simp [Trie.insert]
  | [c] => simp [Trie.insert]
  | c1 :: c2 :: rest => simp [Trie.insert]

/-- C3: against the specified continuation set, the code returns nothing:
after inserting "cat" and "car" from the empty trie, the prefix query "ca"
yields the empty list (not the continuations t and r), and still does after
removing "cat". Trie::insert only ever creates the node of the first
character: its recursion is guarded by the remaining string being empty,
the opposite of what walking the rest of the key requires. -/
theorem trie_cat_car_query_is_empty :
    ((Trie.defaultTrie.insert "cat".data).bind (fun t => t.insert "car".data)).map
        (fun t => (t.getKeysWithPfx "ca".data,
          (t.remove "cat".data).getKeysWithPfx "ca".data))
      = some ([], []) := by
  decide

/-- C4 counterexample: a reachable trie retains a node whose live-count is
zero. From the empty trie, insert "ab" (creating the node of 'a' with
count 2), then remove "a" twice: the node at path "a" now has live-count 0
yet is still present — remove prunes only the direct children of the node
it decrements, never the node itself. -/
theorem trie_zero_count_node_persists :
    (((((Trie.defaultTrie.insert "ab".data).getD Trie.defaultTrie).remove
        "a".data).remove "a".data).findPath "a".data).map Trie.counter = some 0 := by
  decide

/-- C4 amended: after Trie::remove(k), no direct child of the node at the
end of k's path has live-count zero; a node whose own live-count reaches
zero is not pruned from its parent and may persist (the pruning invariant
holds only one level below the decremented node). -/
theorem trie_remove_prunes_terminal_children (ks : List Char) (t n : Trie)
    (h : (t.remove ks).findPath ks = some n) : n.noZeroChild = true := by
  induction ks generalizing t n with
  | nil =>
    simp only [Trie.remove, Trie.findPath, Option.some.injEq] at h
    subst h
    simp only [Trie.noZeroChild, Trie.children, List.all_eq_true]
    intro p hp
    have := List.of_mem_filter hp
    simpa using this
  | cons c rest ih =>
    simp only [Trie.remove] at h
    cases hl : lookupChild c t.children with
    | none =>
      rw [hl] at h
      simp only [Trie.findPath, hl] at h
      exact Option.noConfusion h
    | some child =>
      rw [hl] at h
      simp only [Trie.findPath, Trie.children, lookupChild_updateChild] at h
      exact ih child n h

/-- Witness for the amended C4 theorem: a concrete remove at the root,
whose surviving child has nonzero live-count. -/
theorem trie_remove_prunes_terminal_children_witness :
    (Trie.mk false 0 [('a', Trie.mk false 2 [])]).noZeroChild = true :=
  trie_remove_prunes_terminal_children [] (Trie.mk false 1 [('a', Trie.mk false 2 [])])
    (Trie.mk false 0 [('a', Trie.mk false 2 [])]) (by rfl)

/-- C1: for every key, embedded scalar tag and input that parses at that
tag, a successful set followed by get at the same tag returns exactly the
parsed value. -/
theorem set_get_roundtrip (m : SmirkMap) (t : STag) (k v d : String) (now : Nat)
    (x : t.carrier) (h : parseAs t v = some x) :
    ((m.set t k v d now).1.get t k) = .ok x := by
  simp [SmirkMap.set, h, SmirkMap.get]

/-- Witness for C1 at tag i64, input "42". -/
theorem set_get_roundtrip_witness :
    parseAs .tI64 "42" = some 42 ∧
    ((emptySmirkMap.set .tI64 "answer" "42" "i64" 0).1.get .tI64 "answer") = .ok 42 :=
  ⟨by decide, set_get_roundtrip emptySmirkMap .tI64 "answer" "42" "i64" 0 42 (by decide)⟩

/-- C2: when the input does not parse at the requested tag, set returns
ParseError naming the raw input and the target type, and the whole store —
map, trie and search mode, hence any prior record at the key — is exactly
as before. -/
theorem set_parse_error_leaves_store (m : SmirkMap) (t : STag) (k v d : String) (now : Nat)
    (h : parseAs t v = none) :
    m.set t k v d now = (m, .error (.ParseError k v t.rustName)) := by
  simp [SmirkMap.set, h]

/-- Witness for C2 at tag u8, input "256" (out of range). -/
theorem set_parse_error_leaves_store_witness :
    emptySmirkMap.set .tU8 "k" "256" "u8" 0 =
      (emptySmirkMap, .error (.ParseError "k" "256" "u8")) :=
  set_parse_error_leaves_store emptySmirkMap .tU8 "k" "256" "u8" 0 (by decide)

/-- C6: expiry is never consulted: on a record whose ttl has elapsed but
which is still present, get returns the stored value, exists returns true,
and del removes it and returns 1. -/
theorem expired_record_fully_live (m : SmirkMap) (k : String) (r : Record) (t : STag)
    (v : t.carrier) (now : Nat)
    (hrec : m.map k = some r) (_hexp : r.is_expired now = true)
    (hval : r.value = .scalar t v) :
    m.get t k = .ok v ∧ m.exists k = true ∧ (m.del k).2 = 1 ∧ (m.del k).1.map k = none := by
  refine ⟨?_, ?_, ?_, ?_⟩
  · simp [SmirkMap.get, hrec, hval]
  · simp [SmirkMap.exists, hrec]
  · simp [SmirkMap.del, hrec]
  · simp [SmirkMap.del, hrec]

/-- An expired record used by the C6 and C7 witnesses: written at time 0
with a 5-second ttl, observed at time 10. -/
def recExpired : Record :=
  { value := .scalar .tI64 7, ttl := some 5, ttl_start := 0,
    type_name := "i64", desired_type_name := "i64" }

/-- A one-record map used by the C6 and C7 witnesses. -/
def mapExpired : SmirkMap :=
  { search_mode := .Glob,
    map := fun k => if k = "k" then some recExpired else none,
    trie := Trie.defaultTrie }

/-- Witness for C6 on a concrete expired record. -/
theorem expired_record_fully_live_witness :
    mapExpired.get .tI64 "k" = .ok 7 ∧ mapExpired.exists "k" = true ∧
      (mapExpired.del "k").2 = 1 ∧ (mapExpired.del "k").1.map "k" = none :=
  expired_record_fully_live mapExpired "k" recExpired .tI64 7 10
    (by rfl) (by decide) (by rfl)

/-- C7: set_ttl on an existing record replaces exactly the ttl field — the
record keeps its value, ttl_start (so the countdown still runs from the
original write time) and both type names — and no other key, the trie or
the search mode is touched. -/
theorem set_ttl_replaces_only_ttl (m : SmirkMap) (k : String) (r : Record)
    (ttl : Option Nat) (h : m.map k = some r) :
    (m.set_ttl k ttl).map k = some { r with ttl := ttl } ∧
    (∀ k', k' ≠ k → (m.set_ttl k ttl).map k' = m.map k') ∧
    (m.set_ttl k ttl).search_mode = m.search_mode ∧
    (m.set_ttl k ttl).trie = m.trie := by
  refine ⟨?_, ?_, ?_, ?_⟩
  · simp [SmirkMap.set_ttl, h]
  · intro k' hk'
    simp [SmirkMap.set_ttl, h, hk']
  · simp [SmirkMap.set_ttl, h]
  · simp [SmirkMap.set_ttl, h]

/-- Witness for C7: re-timing the concrete expired record to 99 seconds
keeps every other field. -/
theorem set_ttl_replaces_only_ttl_witness :
    (mapExpired.set_ttl "k" (some 99)).map "k" = some { recExpired with ttl := some 99 } :=
  (set_ttl_replaces_only_ttl mapExpired "k" recExpired (some 99) (by rfl)).1

/-- Splitting the accumulation at a list append: the second half runs from
the total the first half produced, or the first half's error is the result.
This captures that the fold visits keys in the given list order. -/
theorem addGo_append (m : SmirkMap) (t : STag) (l1 l2 : List String) (total : Int) :
    m.addGo t (l1 ++ l2) total =
      (match m.addGo t l1 total with
       | .ok s => m.addGo t l2 s
       | .error e => .error e) := by
  induction l1 generalizing total with
  | nil => simp [SmirkMap.addGo]
  | cons k rest ih =>
    simp only [List.cons_append, SmirkMap.addGo]
    cases hg : m.get t k with
    | ok v =>
      cases hi : t.asInt v with
      | some val =>
        cases hc : checkedAdd t val total with
        | some nt => simp [hi, hc, ih]
        | none => simp [hi, hc]
      | none => simp [hi]
    | error e => simp

/-- Accumulating any value list whose remaining sum drives the total past
hi must abort with AddOverflowError: the running total stays within
[lo, hi] or the checked addition fails at that step. -/
theorem addGo_overflow (m : SmirkMap) (t : STag) (lo hi : Int)
    (hb : t.intBounds = some (lo, hi)) (keys : List String) (vs : List Int)
    (hf : List.Forall₂ (fun k v => m.getIntVal t k = some v) keys vs) :
    ∀ total : Int, lo ≤ total → total ≤ hi → hi < total + vs.sum →
      m.addGo t keys total = .error .AddOverflowError := by
  induction hf with
  | nil =>
    intro total h1 h2 h3
    simp at h3
    omega
  | @cons k v keys vs hkv hrest ih =>
    intro total h1 h2 h3
    rw [List.sum_cons] at h3
    unfold SmirkMap.getIntVal at hkv
    cases hg : m.get t k with
    | ok w =>
      rw [hg] at hkv
      simp at hkv
      simp only [SmirkMap.addGo, hg, hkv, checkedAdd, hb]
      by_cases hc : lo ≤ v + total ∧ v + total ≤ hi
      · rw [if_pos hc]
        exact ih (v + total) hc.1 hc.2 (by omega)
      · rw [if_neg hc]
    | error e =>
      rw [hg] at hkv
      exact Option.noConfusion hkv

/-- C5: checked accumulation never wraps — summing stored integer values
past the tag's maximum aborts with AddOverflowError — and the fold visits
keys in the given order, the first key whose get fails (missing key or
stored type not T) aborting the whole operation with an error naming that
key. -/
theorem add_overflow_and_first_failure :
    (∀ (m : SmirkMap) (t : STag) (lo hi : Int) (keys : List String) (vs : List Int),
      t.intBounds = some (lo, hi) → lo ≤ 0 → 0 ≤ hi →
      List.Forall₂ (fun k v => m.getIntVal t k = some v) keys vs →
      hi < vs.sum →
      m.add t keys = .error .AddOverflowError) ∧
    (∀ (m : SmirkMap) (t : STag) (l1 : List String) (k : String) (l2 : List String)
      (s : Int) (e : SmirkMessages),
      m.addGo t l1 0 = .ok s → m.get t k = .error e →
      m.add t (l1 ++ k :: l2) = .error (.ParseError k "" t.rustName)) := by
  constructor
  · intro m t lo hi keys vs hb hlo hhi hf hsum
    exact addGo_overflow m t lo hi hb keys vs hf 0 hlo hhi (by omega)
  · intro m t l1 k l2 s e h1 h2
    unfold SmirkMap.add
    rw [addGo_append, h1]
    simp [SmirkMap.addGo, h2]

/-- Two u8 records summing to 300 and used by the C5 witness. -/
def mapU8 : SmirkMap :=
  { search_mode := .Glob,
    map := fun k =>
      if k = "a" then
        some { value := .scalar .tU8 200, ttl := none, ttl_start := 0,
               type_name := "u8", desired_type_name := "u8" }
      else if k = "b" then
        some { value := .scalar .tU8 100, ttl := none, ttl_start := 0,
               type_name := "u8", desired_type_name := "u8" }
      else none,
    trie := Trie.defaultTrie }

/-- Witness for C5: at tag u8, 200 + 100 overflows, and a missing second
key aborts with an error naming it. -/
theorem add_overflow_and_first_failure_witness :
    mapU8.add .tU8 ["a", "b"] = .error .AddOverflowError ∧
    mapU8.add .tU8 (["a"] ++ "missing" :: []) = .error (.ParseError "missing" "" "u8") :=
  ⟨add_overflow_and_first_failure.1 mapU8 .tU8 0 255 ["a", "b"] [200, 100]
      (by rfl) (by decide) (by decide)
      (List.Forall₂.cons (by rfl) (List.Forall₂.cons (by rfl) List.Forall₂.nil))
      (by decide),
    add_overflow_and_first_failure.2 mapU8 .tU8 ["a"] "missing" [] 200
      (.KeyNotFound "missing") (by rfl) (by rfl)⟩

/-- Tokenizing a list that contains no separator yields that one token. -/
theorem splitTok_not_mem (sep : Char) (l : List Char) (h : sep ∉ l) :
    splitTok sep l = [l] := by
  induction l with
  | nil => rfl
  | cons c rest ih =>
    have hc : ¬ c = sep := fun he => h (he ▸ List.mem_cons_self c rest)
    have hr : sep ∉ rest := fun hm => h (List.mem_cons_of_mem c hm)
    simp [splitTok, hc, ih hr]

/-- Tokenizer step on a non-separator head. -/
theorem splitTok_cons_ne (sep c : Char) (h : ¬ c = sep) (l : List Char) :
    splitTok sep (c :: l) =
      (c :: (splitTok sep l).headD []) :: (splitTok sep l).tail := by
  simp [splitTok, h]

/-- Tokenizer step on a separator head. -/
theorem splitTok_cons_sep (sep : Char) (l : List Char) :
    splitTok sep (sep :: l) = [] :: splitTok sep l := by
  simp [splitTok]

/-- Decode of a one-newline-terminated MODE line whose mode token has no
space: the token is uppercased and its last character dropped before the
comparison with GLOB / REGEX. -/
theorem fromVec_mode_line (tok : List Char) (hnsp : ' ' ∉ tok) :
    fromVec ("MODE ".data ++ tok ++ ['\n']) =
      (if (tok.map asciiUpper).dropLast = "GLOB".data then .ok (.Mode .Glob)
       else if (tok.map asciiUpper).dropLast = "REGEX".data then .ok (.Mode .Regex)
       else .error .NoValidModeSpecified) := by
  have htrim : trimNl ("MODE ".data ++ tok ++ ['\n']) = "MODE ".data ++ tok := by
    unfold trimNl
    rw [List.getLast?_concat, List.dropLast_concat]
    simp
  have hsplit : splitTok ' ' ("MODE ".data ++ tok) = ["MODE".data, tok] := by
    show splitTok ' ' ('M' :: 'O' :: 'D' :: 'E' :: ' ' :: tok) = _
    rw [splitTok_cons_ne ' ' 'M' (by decide), splitTok_cons_ne ' ' 'O' (by decide),
      splitTok_cons_ne ' ' 'D' (by decide), splitTok_cons_ne ' ' 'E' (by decide),
      splitTok_cons_sep, splitTok_not_mem ' ' tok hnsp]
    rfl
  unfold fromVec
  rw [htrim, hsplit]
  rfl

/-- C8 counterexample: the exact lines the claim quantifies over are
rejected. With a single terminating newline the MODE arm's unconditional
pop truncates the mode token (GLOB becomes GLO, REGEX becomes REGE), so
Command::from_vec returns NoValidModeSpecified instead of a Mode command. -/
theorem mode_single_newline_rejected :
    fromVec "MODE GLOB\n".data = .error .NoValidModeSpecified ∧
    fromVec "MODE REGEX\n".data = .error .NoValidModeSpecified := by
  exact ⟨rfl, rfl⟩

/-- C8 amended: a MODE line decodes to the Mode command exactly when the
mode token, uppercased and with its final character removed, reads GLOB or
REGEX — e.g. CRLF-terminated lines, where the popped character is the
carriage return — and processing a Mode command stores that mode in the
shared map's search_mode field, the selector every KEYS request dispatches
on. -/
theorem mode_decode_amended (tok : List Char) (hnsp : ' ' ∉ tok) :
    ((tok.map asciiUpper).dropLast = "GLOB".data →
      fromVec ("MODE ".data ++ tok ++ ['\n']) = .ok (.Mode .Glob)) ∧
    ((tok.map asciiUpper).dropLast = "REGEX".data →
      fromVec ("MODE ".data ++ tok ++ ['\n']) = .ok (.Mode .Regex)) ∧
    (∀ (mode : SmirkSearchMode) (sm : SmirkMap),
      (processMode mode sm).search_mode = mode) := by
  refine ⟨?_, ?_, ?_⟩
  · intro h
    rw [fromVec_mode_line tok hnsp, if_pos h]
  · intro h
    rw [fromVec_mode_line tok hnsp, h]
    rfl
  · intro mode sm
    cases mode <;> rfl

/-- Witness for the amended C8 theorem: the CRLF-terminated MODE GLOB line
decodes to the Glob mode command. -/
theorem mode_decode_amended_witness :
    fromVec ("MODE ".data ++ "GLOB\r".data ++ ['\n']) = .ok (.Mode .Glob) :=
  (mode_decode_amended "GLOB\r".data (by decide)).1 (by decide)
